import Mathlib

/-!
Verification of `src/megatron/ds_text_generation.py`.

This file shallowly embeds the two functions of the source that the claims
are about:

* `tensor_parallel_sample` (source lines 80-98): each rank of a
  tensor-parallel group holds a contiguous shard of the full-vocabulary
  logits; the shards are gathered onto the destination rank, concatenated
  along the vocabulary (last) dimension in ascending rank order, and the
  destination samples one token per batch row; every other rank returns a
  placeholder shaped like one sampled-token slice.

* `get_batch_pipe` (source lines 175-210): squeezes a 3-dimensional
  `text` tensor, broadcasts it, and slices it into `tokens` (all columns
  but the last) and `labels` (all columns but the first), optionally
  truncating both to `curriculum_seqlen` columns under legacy curriculum
  learning.

Tensors are embedded as lists of rational rows together with an element
dtype; the distributed state of the group is passed explicitly as the list
of every rank's shard in ascending rank order, and the blocking gather
collective becomes an explicit function on that state.  Collective calls
and sampling calls are recorded in an event trace so that statements about
"performs a collective operation" and "performs the sampling call" are
expressible.  Failure (a raised error, or behavior the spec leaves
undefined) is `Option.none`.
-/

/-- Element dtype of an embedded tensor: the logits shards are floating
point, sampled token ids are 64-bit integers. -/
inductive DType
  | float32
  | int64
deriving DecidableEq, Repr

/-- A one-dimensional tensor: an element dtype and a flat list of values
(shape `[data.length]`). -/
structure Tensor1 where
  dtype : DType
  data : List ℚ
deriving DecidableEq, Repr

/-- A two-dimensional tensor `[batch, width]`: an element dtype and a list
of rows. -/
structure Tensor2 where
  dtype : DType
  rows : List (List ℚ)
deriving DecidableEq, Repr

/-- Default tensor used for out-of-range rank lookups (never reached under
the claims' hypotheses). -/
def defaultT2 : Tensor2 := ⟨DType.float32, []⟩

/-- The shape profile of a 2-D tensor: the length of each row.  Two
tensors gather-compatibly match when their dtypes and shape profiles
agree. -/
def shapeOf2 (t : Tensor2) : List ℕ := t.rows.map List.length

/-- `torch.empty_like` on a 2-D tensor: same dtype and shape,
uninitialized content (embedded as zeros; no claim consumes the values of
an uninitialized buffer). -/
def empty_like2 (t : Tensor2) : Tensor2 :=
  ⟨t.dtype, t.rows.map (fun r => r.map (fun _ => 0))⟩

/-- `torch.empty_like` on a 1-D tensor: same dtype and shape,
uninitialized content (embedded as zeros). -/
def empty_like1 (t : Tensor1) : Tensor1 :=
  ⟨t.dtype, t.data.map (fun _ => 0)⟩

/-- `logits[..., 0]`: index the last (vocabulary) dimension at 0, keeping
the leading (batch) dimension.  Fails (IndexError) when some row has an
empty last dimension. -/
def index_last0 (t : Tensor2) : Option Tensor1 :=
  if ∀ r ∈ t.rows, r ≠ [] then
    some ⟨t.dtype, t.rows.map (fun r => r.headD 0)⟩
  else
    none

/-- `torch.empty_like(logits[..., 0])`, the value returned by the
non-destination ranks (source line 96): a tensor of the local shard's
dtype whose shape is the shard's leading dimensions with the vocabulary
dimension removed. -/
def placeholderOf (t : Tensor2) : Option Tensor1 :=
  (index_last0 t).map empty_like1

/-- `torch.cat(tensor_list, dim=-1).contiguous()` (source line 93):
concatenate 2-D tensors along the last dimension, row by row, in the
order given by the list. -/
def cat2 (ts : List Tensor2) : Tensor2 :=
  ⟨(ts.headD defaultT2).dtype,
   (List.range (ts.headD defaultT2).rows.length).map
     (fun i => (ts.map (fun t => t.rows.getD i [])).flatten)⟩

/-- The receive-buffer allocation of source lines 86-89: the destination
(group rank 0) allocates one `empty_like(logits)` buffer per participant;
every other rank supplies the empty list. -/
def recvBuffers (rank worldSize : ℕ) (logits : Tensor2) : List Tensor2 :=
  if rank = 0 then (List.range worldSize).map (fun _ => empty_like2 logits) else []

/-- `torch.distributed.gather(logits, tensor_list, dst, group)` (source
line 90), as a function of the whole group's state: `shards` lists every
participant's local shard in ascending rank order, `dst` is the group
ordinal of the destination and `rank` the calling rank's ordinal.  On the
destination the supplied buffers must number one per participant and each
must match the corresponding incoming shard's dtype and shape, and the
call fills them with the shards in ascending rank order; a non-destination
rank must supply no buffers.  Violating either requirement is an error
(`none`): the collective rejects missing or mismatched receive buffers. -/
def gatherColl (shards : List Tensor2) (dst rank : ℕ) (buffers : List Tensor2) :
    Option (List Tensor2) :=
  if rank = dst then
    if buffers.length = shards.length ∧
        ∀ p ∈ buffers.zip shards, p.1.dtype = p.2.dtype ∧ shapeOf2 p.1 = shapeOf2 p.2 then
      some shards
    else
      none
  else
    if buffers = [] then some buffers else none

/-- Events observable from one rank's call: issuing the gather collective,
and invoking the sampling primitive. -/
inductive Ev
  | gatherEv
  | sampleEv
deriving DecidableEq, Repr

/-- Modelled from the spec: the sampling primitive
(`megatron.text_generation.sampling.sample`, an external collaborator not
under `src/`) returns integer token ids — "a single integer token id (or
batch thereof)" — one per batch row; its result is therefore an
`int64` tensor, in contrast with the floating-point logits. -/
def sampledTensor (toks : List ℤ) : Tensor1 :=
  ⟨DType.int64, toks.map (fun (z : ℤ) => (z : ℚ))⟩

/-- `tensor_parallel_sample` (source lines 80-98).

The source reads the group world size, its own ordinal rank and the
destination rank from ambient framework state; here the group state is
explicit: `shards` holds every rank's local logits shard in ascending
rank order (so the caller's own `logits` argument of the source is
`shards.getD rank defaultT2`), and `dst` is the group ordinal of the
configured destination (`get_tensor_model_parallel_src_rank`, which the
code assumes — without checking — to be the member with ordinal 0).

The external sampling primitive is not under `src/`; per the spec it is a
pure function of the full logits and the three sampling parameters once
the random seed is fixed, and is undefined for non-positive temperature,
so it is passed in as an `Option`-valued parameter `sampleFn` and the
theorems quantify over it.

Returns the rank's result (`none` = a raised error) together with the
trace of events this rank performs, in order. -/
def tensor_parallel_sample
    (sampleFn : List (List ℚ) → ℚ → ℕ → ℚ → Option (List ℤ))
    (shards : List Tensor2) (dst rank : ℕ)
    (top_p : ℚ) (top_k : ℕ) (temperature : ℚ) :
    Option Tensor1 × List Ev :=
  let world_size := shards.length
  let logits := shards.getD rank defaultT2
  let tensor_list := recvBuffers rank world_size logits
  match gatherColl shards dst rank tensor_list with
  | none => (none, [Ev.gatherEv])
  | some gathered =>
      if rank = 0 then
        ((sampleFn (cat2 gathered).rows top_p top_k temperature).map sampledTensor,
         [Ev.gatherEv, Ev.sampleEv])
      else
        (placeholderOf logits, [Ev.gatherEv])

/-- Shard `r` of the uniform contiguous vocabulary partition with shard
width `s`: columns `[r*s, (r+1)*s)` of the full logits.  This is the
spec-side description of a valid shard partition ("contiguous,
non-overlapping, union = V") used to state the refinement claim. -/
def vocabShard (full : List (List ℚ)) (s r : ℕ) : Tensor2 :=
  ⟨DType.float32, full.map (fun row => (row.drop (r * s)).take s)⟩

/-- All `W` shards of the uniform contiguous vocabulary partition, in
ascending rank order. -/
def vocabShards (full : List (List ℚ)) (W s : ℕ) : List Tensor2 :=
  (List.range W).map (fun r => vocabShard full s r)

/-- The shards all share the dtype and shape of the destination rank's
local shard — the precondition under which the gather's receive buffers
(allocated as `empty_like` of the destination's shard) match every
incoming shard. -/
def uniformShards (shards : List Tensor2) : Prop :=
  ∀ t ∈ shards, t.dtype = (shards.getD 0 defaultT2).dtype ∧
    shapeOf2 t = shapeOf2 (shards.getD 0 defaultT2)

instance (shards : List Tensor2) : Decidable (uniformShards shards) := by
  unfold uniformShards; infer_instance

/-- Arguments of `get_batch_pipe` that its control flow reads (source
lines 201-208); the remaining argument fields feed only the external
mask-building collaborator and are omitted. -/
structure Args where
  curriculum_learning_legacy : Bool
  curriculum_seqlen : ℕ
deriving DecidableEq, Repr

/-- The `data['text']` tensor handed to `get_batch_pipe`: either already
2-dimensional `[batch, n]`, or 3-dimensional `[batch, m, n]`. -/
inductive TText
  | two (rows : List (List ℤ))
  | three (cube : List (List (List ℤ)))
deriving DecidableEq, Repr

/-- `data['text'].squeeze(1)` applied when `data['text'].dim() == 3`
(source lines 180-181): removes the middle dimension when it has size 1,
otherwise leaves the tensor unchanged; 2-D tensors pass through. -/
def squeezeText : TText → TText
  | TText.two rows => TText.two rows
  | TText.three cube =>
      if ∀ m ∈ cube, m.length = 1 then
        TText.two (cube.map (fun m => m.headD []))
      else
        TText.three cube

/-- `get_batch_pipe` (source lines 175-210), restricted to the two outputs
the claims are about.

`tensor_parallel.broadcast_data(['text'], data, torch.int64)` followed by
`.long()` is external collaborator code not under `src/`; modelled from
the spec's boundary description it delivers the source rank's int64
`text` tensor to every rank, i.e. it is the identity on the already
present integer data.  The attention mask, loss mask and position ids come
from the external `get_ltor_masks_and_position_ids` collaborator and are
not modelled; the result is projected to `(tokens, labels)`.  A `text`
tensor that is still 3-dimensional after the squeeze falls outside the
2-D slicing `tokens_[:, 1:]` / `tokens_[:, :-1]` modelled here and is
mapped to `none`. -/
def get_batch_pipe (args : Args) (text : TText) :
    Option (List (List ℤ) × List (List ℤ)) :=
  match squeezeText text with
  | TText.three _ => none
  | TText.two rows =>
      let tokens_ := rows
      let labels := tokens_.map (fun r => r.drop 1)
      let tokens := tokens_.map (fun r => r.dropLast)
      if args.curriculum_learning_legacy = true ∧
          args.curriculum_seqlen < (tokens.headD []).length then
        some (tokens.map (fun r => r.take args.curriculum_seqlen),
              labels.map (fun r => r.take args.curriculum_seqlen))
      else
        some (tokens, labels)

/-! ## Helper lemmas -/

/-- Looking a list up at index 0 with a fallback is taking its head with
that fallback. -/
lemma getD_zero_eq_headD {α : Type} (l : List α) (d : α) : l.getD 0 d = l.headD d := by
  cases l <;> rfl

/-- Reading every index of a list back in order reproduces the list. -/
lemma map_getD_range {α : Type} (l : List α) (d : α) :
    (List.range l.length).map (fun i => l.getD i d) = l := by
  induction l with
  | nil => simp
  | cons a t ih =>
      rw [List.length_cons, List.range_succ_eq_map, List.map_cons, List.map_map]
      rw [List.getD_cons_zero]
      have hcomp : ((fun i => (a :: t).getD i d) ∘ (· + 1)) = (fun i => t.getD i d) := by
        funext i
        simp [List.getD_cons_succ]
      rw [hcomp, ih]

/-- `empty_like2` preserves the dtype. -/
lemma empty_like2_dtype (t : Tensor2) : (empty_like2 t).dtype = t.dtype := rfl

/-- `empty_like2` preserves the shape profile. -/
lemma empty_like2_shape (t : Tensor2) : shapeOf2 (empty_like2 t) = shapeOf2 t := by
  simp [shapeOf2, empty_like2, List.map_map, Function.comp]

/-- A shard looked up inside the group belongs to the group. -/
lemma getD_mem_shards (shards : List Tensor2) (r : ℕ) (hr : r < shards.length) :
    shards.getD r defaultT2 ∈ shards := by
  rw [List.getD_eq_getElem _ _ hr]
  exact List.getElem_mem hr

/-- Under `uniformShards`, every rank has the same batch (row count) as
the destination rank. -/
lemma uniform_rows_length (shards : List Tensor2) (hu : uniformShards shards)
    (r : ℕ) (hr : r < shards.length) :
    (shards.getD r defaultT2).rows.length = (shards.getD 0 defaultT2).rows.length := by
  have h := (hu _ (getD_mem_shards shards r hr)).2
  have h2 := congrArg List.length h
  simpa [shapeOf2] using h2

/-- The destination's receive buffers number one per participant and each
matches the corresponding incoming shard, provided the shards are
uniform. -/
lemma recvBuffers_match (shards : List Tensor2) (hu : uniformShards shards) :
    (recvBuffers 0 shards.length (shards.getD 0 defaultT2)).length = shards.length ∧
    ∀ p ∈ (recvBuffers 0 shards.length (shards.getD 0 defaultT2)).zip shards,
      p.1.dtype = p.2.dtype ∧ shapeOf2 p.1 = shapeOf2 p.2 := by
  constructor
  · simp [recvBuffers]
  · intro p hp
    obtain ⟨hb, hs⟩ := List.of_mem_zip hp
    rw [recvBuffers, if_pos rfl] at hb
    obtain ⟨i, _, hbe⟩ := List.mem_map.mp hb
    obtain ⟨hd, hsh⟩ := hu p.2 hs
    constructor
    · rw [← hbe, empty_like2_dtype, hd]
    · rw [← hbe, empty_like2_shape, hsh]

/-- On the destination rank (ordinal 0, with the destination correctly
configured as ordinal 0), the gather succeeds and delivers all shards in
ascending rank order, provided the shards are uniform. -/
lemma gather_ok (shards : List Tensor2) (hu : uniformShards shards) :
    gatherColl shards 0 0
      (recvBuffers 0 shards.length (shards.getD 0 defaultT2)) = some shards := by
  unfold gatherColl
  rw [if_pos rfl, if_pos (recvBuffers_match shards hu)]

/-- Definitional unfolding of `tensor_parallel_sample` with the local
`let` bindings substituted. -/
lemma tps_unfold (f : List (List ℚ) → ℚ → ℕ → ℚ → Option (List ℤ))
    (shards : List Tensor2) (dst rank : ℕ) (p : ℚ) (k : ℕ) (T : ℚ) :
    tensor_parallel_sample f shards dst rank p k T =
      match gatherColl shards dst rank
          (recvBuffers rank shards.length (shards.getD rank defaultT2)) with
      | none => (none, [Ev.gatherEv])
      | some gathered =>
          if rank = 0 then
            ((f (cat2 gathered).rows p k T).map sampledTensor, [Ev.gatherEv, Ev.sampleEv])
          else
            (placeholderOf (shards.getD rank defaultT2), [Ev.gatherEv]) := rfl

/-- Evaluation of `tensor_parallel_sample` on the destination rank:
gather every shard, concatenate, sample. -/
lemma tps_dst_eq (f : List (List ℚ) → ℚ → ℕ → ℚ → Option (List ℤ))
    (shards : List Tensor2) (p : ℚ) (k : ℕ) (T : ℚ) (hu : uniformShards shards) :
    tensor_parallel_sample f shards 0 0 p k T =
      ((f (cat2 shards).rows p k T).map sampledTensor, [Ev.gatherEv, Ev.sampleEv]) := by
  rw [tps_unfold, gather_ok shards hu]
  rfl

/-- Evaluation of `tensor_parallel_sample` on a non-destination rank: the
gather is joined with no buffers and the rank returns the placeholder
built from its own shard. -/
lemma tps_nondst_eq (f : List (List ℚ) → ℚ → ℕ → ℚ → Option (List ℤ))
    (shards : List Tensor2) (p : ℚ) (k : ℕ) (T : ℚ) (r : ℕ) (hr : r ≠ 0) :
    tensor_parallel_sample f shards 0 r p k T =
      (placeholderOf (shards.getD r defaultT2), [Ev.gatherEv]) := by
  rw [tps_unfold]
  rw [show recvBuffers r shards.length (shards.getD r defaultT2) = [] from if_neg hr]
  rw [show gatherColl shards 0 r [] = some [] from by
    unfold gatherColl
    rw [if_neg hr, if_pos rfl]]
  simp [hr]

/-- Every rank's call, in every configuration, issues the gather
collective. -/
lemma gatherEv_mem (f : List (List ℚ) → ℚ → ℕ → ℚ → Option (List ℤ))
    (shards : List Tensor2) (dst rank : ℕ) (p : ℚ) (k : ℕ) (T : ℚ) :
    Ev.gatherEv ∈ (tensor_parallel_sample f shards dst rank p k T).2 := by
  rw [tps_unfold]
  cases hg : gatherColl shards dst rank
      (recvBuffers rank shards.length (shards.getD rank defaultT2)) with
  | none => simp
  | some gathered =>
      by_cases hr : rank = 0 <;> simp [hr]

/-- Concatenating the successive width-`s` chunks of a row of length
`W * s` reproduces the row: the algebraic heart of the shard-partition
reconstruction. -/
lemma flatten_chunks (s : ℕ) :
    ∀ (W : ℕ) (row : List ℚ), row.length = W * s →
      ((List.range W).map (fun r => (row.drop (r * s)).take s)).flatten = row := by
  intro W
  induction W with
  | zero =>
      intro row h
      rw [Nat.zero_mul] at h
      simp [List.eq_nil_of_length_eq_zero h]
  | succ n ih =>
      intro row h
      rw [List.range_succ_eq_map, List.map_cons, List.map_map, List.flatten_cons]
      have hcomp : ((fun r => (row.drop (r * s)).take s) ∘ (· + 1)) =
          (fun r => ((row.drop s).drop (r * s)).take s) := by
        funext r
        simp only [Function.comp]
        rw [List.drop_drop]
        have harith : (r + 1) * s = s + r * s := by ring
        rw [harith]
      rw [hcomp]
      have hlen : (row.drop s).length = n * s := by
        rw [List.length_drop]
        rw [Nat.succ_mul] at h
        omega
      rw [ih (row.drop s) hlen]
      rw [Nat.zero_mul, List.drop_zero]
      exact List.take_append_drop s row

/-- The head shard of the uniform partition, for positive `W`. -/
lemma vocabShards_headD (full : List (List ℚ)) (W s : ℕ) (hW : 0 < W) :
    (vocabShards full W s).headD defaultT2 = vocabShard full s 0 := by
  cases W with
  | zero => omega
  | succ n =>
      unfold vocabShards
      rw [List.range_succ_eq_map]
      rfl

/-- Ascending-rank concatenation of the uniform contiguous partition
reconstructs the full logits tensor. -/
lemma cat2_vocabShards (full : List (List ℚ)) (W s : ℕ) (hW : 0 < W)
    (hlen : ∀ row ∈ full, row.length = W * s) :
    cat2 (vocabShards full W s) = ⟨DType.float32, full⟩ := by
  unfold cat2
  rw [vocabShards_headD full W s hW]
  rw [Tensor2.mk.injEq]
  refine ⟨rfl, ?_⟩
  rw [show (vocabShard full s 0).rows.length = full.length from by
    unfold vocabShard
    exact List.length_map full _]
  have hpt : ∀ i ∈ List.range full.length,
      ((vocabShards full W s).map (fun t => t.rows.getD i [])).flatten =
        full.getD i [] := by
    intro i hi
    have hi2 : i < full.length := List.mem_range.mp hi
    unfold vocabShards
    rw [List.map_map]
    have hinner : ∀ r ∈ List.range W,
        ((fun t => t.rows.getD i []) ∘ (fun r => vocabShard full s r)) r =
          ((full.getD i []).drop (r * s)).take s := by
      intro r _
      simp only [Function.comp, vocabShard]
      rw [List.getD_eq_getElem _ _ (by simpa using hi2), List.getElem_map,
        List.getD_eq_getElem _ _ hi2]
    rw [List.map_congr_left hinner]
    refine flatten_chunks s W (full.getD i []) ?_
    rw [List.getD_eq_getElem _ _ hi2]
    exact hlen _ (List.getElem_mem hi2)
  rw [List.map_congr_left hpt, map_getD_range]

/-- The uniform contiguous partition satisfies the gather's buffer-match
precondition: every shard has the destination shard's dtype and shape. -/
lemma uniformShards_vocabShards (full : List (List ℚ)) (W s : ℕ) (hW : 0 < W)
    (hlen : ∀ row ∈ full, row.length = W * s) :
    uniformShards (vocabShards full W s) := by
  intro t ht
  have hget : (vocabShards full W s).getD 0 defaultT2 = vocabShard full s 0 := by
    rw [getD_zero_eq_headD]
    exact vocabShards_headD full W s hW
  obtain ⟨r, hr, rfl⟩ := List.mem_map.mp ht
  have hrW : r < W := List.mem_range.mp hr
  refine ⟨by rw [hget]; rfl, ?_⟩
  rw [hget]
  unfold shapeOf2 vocabShard
  simp only [List.map_map]
  apply List.map_congr_left
  intro row hrow
  simp only [Function.comp, List.length_take, List.length_drop]
  rw [hlen row hrow, Nat.zero_mul]
  have h1 : (r + 1) * s ≤ W * s := Nat.mul_le_mul_right s hrW
  rw [Nat.succ_mul] at h1
  omega

/-- A single-shard group is trivially uniform. -/
lemma uniformShards_singleton (t : Tensor2) : uniformShards [t] := by
  intro u hu
  rw [List.mem_singleton] at hu
  subst hu
  exact ⟨rfl, rfl⟩

/-- Concatenating a single shard gives back that shard's rows. -/
lemma cat2_singleton (t : Tensor2) : cat2 [t] = ⟨t.dtype, t.rows⟩ := by
  unfold cat2
  rw [Tensor2.mk.injEq]
  refine ⟨rfl, ?_⟩
  have hpt : ∀ i ∈ List.range ((List.headD [t] defaultT2).rows.length),
      (([t].map (fun u => u.rows.getD i [])).flatten) = t.rows.getD i [] := by
    intro i _
    simp
  rw [List.map_congr_left hpt]
  have : (List.headD [t] defaultT2).rows.length = t.rows.length := rfl
  rw [this, map_getD_range]

/-- The batch dimension of the concatenation is the destination shard's
batch dimension. -/
lemma cat2_rows_length (shards : List Tensor2) :
    (cat2 shards).rows.length = (shards.getD 0 defaultT2).rows.length := by
  unfold cat2
  rw [List.length_map, List.length_range, getD_zero_eq_headD]

/-- Unfolding of `get_batch_pipe` once the squeezed text tensor is known
to be 2-dimensional. -/
lemma gbp_two_eq (args : Args) (text : TText) (rows : List (List ℤ))
    (hsq : squeezeText text = TText.two rows) :
    get_batch_pipe args text =
      (if args.curriculum_learning_legacy = true ∧
          args.curriculum_seqlen < ((rows.map (fun r => r.dropLast)).headD []).length then
        some ((rows.map (fun r => r.dropLast)).map (fun r => r.take args.curriculum_seqlen),
              (rows.map (fun r => r.drop 1)).map (fun r => r.take args.curriculum_seqlen))
      else
        some (rows.map (fun r => r.dropLast), rows.map (fun r => r.drop 1))) := by
  unfold get_batch_pipe
  rw [hsq]

/-! ## Concrete fixtures used by the witnesses -/

/-- A concrete stand-in for the external sampling primitive: the token
for each batch row is the width of the logits row it was sampled from
(so the result distinguishes full-vocabulary logits from shards). -/
def egF : List (List ℚ) → ℚ → ℕ → ℚ → Option (List ℤ) :=
  fun rows _ _ _ => some (rows.map (fun r => (r.length : ℤ)))

/-- A concrete stand-in for the external sampling primitive that honours
the spec's temperature domain: undefined for non-positive temperature. -/
def egFT : List (List ℚ) → ℚ → ℕ → ℚ → Option (List ℤ) :=
  fun rows _ _ t =>
    if t ≤ 0 then none else some (rows.map (fun r => (r.length : ℤ)))

/-- A concrete two-rank group of uniform one-row shards. -/
def egShards : List Tensor2 :=
  [⟨DType.float32, [[1, 2]]⟩, ⟨DType.float32, [[3, 4]]⟩]

/-! ## Claims -/

/-- C1 counterexample: the claim quantifies over every contiguous,
non-overlapping partition whose union is the vocabulary, but for the
valid uneven partition `[[1]] / [[2, 3]]` of the full logits
`[[1, 2, 3]]` (V = 3, W = 2, shard sizes 1 and 2) the destination's
receive buffers — allocated as `empty_like` of its own width-1 shard —
mismatch rank 1's width-2 shard, the gather fails, and no token is
produced, so the result differs from sampling the unsharded logits. -/
theorem tensor_parallel_sample_uneven_partition_cex :
    (tensor_parallel_sample egF
        [⟨DType.float32, [[1]]⟩, ⟨DType.float32, [[2, 3]]⟩] 0 0 0 0 1).1 ≠
      (egF [[1, 2, 3]] 0 0 1).map sampledTensor := by
  decide

/-- C1 (amended): for every equal-width contiguous shard partition of a
vocabulary of width `W * s` across `W` participants (shard `r` holding
columns `[r*s, (r+1)*s)`, so the shards are non-overlapping and their
union is the full vocabulary), `tensor_parallel_sample` returns on the
destination rank exactly the token that the sampling primitive produces
on the unsharded full-vocabulary logits — at a fixed random seed the
primitive is a pure function, so same seed gives the same token. -/
theorem tensor_parallel_sample_uniform_partition_refinement
    (f : List (List ℚ) → ℚ → ℕ → ℚ → Option (List ℤ))
    (full : List (List ℚ)) (W s : ℕ) (p : ℚ) (k : ℕ) (T : ℚ)
    (hW : 0 < W) (hlen : ∀ row ∈ full, row.length = W * s) :
    (tensor_parallel_sample f (vocabShards full W s) 0 0 p k T).1 =
      (f full p k T).map sampledTensor := by
  rw [tps_dst_eq f _ p k T (uniformShards_vocabShards full W s hW hlen)]
  rw [cat2_vocabShards full W s hW hlen]

/-- C1 witness: the amended theorem applied to the uniform 2-shard
partition of a batch of two 4-wide rows. -/
theorem tensor_parallel_sample_uniform_partition_refinement_witness :
    (tensor_parallel_sample egF (vocabShards [[1, 2, 3, 4], [5, 6, 7, 8]] 2 2) 0 0 0 0 1).1 =
      (egF [[1, 2, 3, 4], [5, 6, 7, 8]] 0 0 1).map sampledTensor :=
  tensor_parallel_sample_uniform_partition_refinement egF
    [[1, 2, 3, 4], [5, 6, 7, 8]] 2 2 0 0 1 (by decide) (by decide)

/-- C2: with the destination correctly configured as group ordinal 0 and
uniform shards, exactly one member of the group — the destination,
ordinal 0 — performs the sampling call (its trace contains the sampling
event iff it is rank 0), and every other member instead returns the
placeholder built from its own shard. -/
theorem tensor_parallel_sample_unique_sampler
    (f : List (List ℚ) → ℚ → ℕ → ℚ → Option (List ℤ))
    (shards : List Tensor2) (p : ℚ) (k : ℕ) (T : ℚ) (r : ℕ)
    (hu : uniformShards shards) (hr : r < shards.length) :
    (Ev.sampleEv ∈ (tensor_parallel_sample f shards 0 r p k T).2 ↔ r = 0) ∧
    (r ≠ 0 →
      (tensor_parallel_sample f shards 0 r p k T).1 =
        placeholderOf (shards.getD r defaultT2)) := by
  constructor
  · constructor
    · intro hmem
      by_contra hne
      rw [tps_nondst_eq f shards p k T r hne] at hmem
      simp at hmem
    · intro h0
      subst h0
      rw [tps_dst_eq f shards p k T hu]
      simp
  · intro hne
    rw [tps_nondst_eq f shards p k T r hne]

/-- C2 witness: the theorem at the concrete two-rank group, seen from
rank 1. -/
theorem tensor_parallel_sample_unique_sampler_witness :
    (Ev.sampleEv ∈ (tensor_parallel_sample egF egShards 0 1 0 0 1).2 ↔ 1 = 0) ∧
    (1 ≠ 0 →
      (tensor_parallel_sample egF egShards 0 1 0 0 1).1 =
        placeholderOf (egShards.getD 1 defaultT2)) :=
  tensor_parallel_sample_unique_sampler egF egShards 0 0 1 1 (by decide) (by decide)

/-- C3: on the destination rank the result is the sampling primitive —
which per the spec applies temperature scaling, then top-k and top-p
filtering, then samples one token per batch row — applied with the given
parameters to the tensor whose batch row `i` is the concatenation, in
ascending rank order (rank 0's slice first, then rank 1's, ...), of the
gathered shards' rows `i`. -/
theorem tensor_parallel_sample_dst_concat_ascending
    (f : List (List ℚ) → ℚ → ℕ → ℚ → Option (List ℤ))
    (shards : List Tensor2) (p : ℚ) (k : ℕ) (T : ℚ)
    (hu : uniformShards shards) :
    (tensor_parallel_sample f shards 0 0 p k T).1 =
      (f ((List.range (shards.getD 0 defaultT2).rows.length).map
          (fun i => (shards.map (fun t => t.rows.getD i [])).flatten)) p k T).map
        sampledTensor := by
  rw [tps_dst_eq f shards p k T hu]
  have h : (cat2 shards).rows =
      (List.range (shards.getD 0 defaultT2).rows.length).map
        (fun i => (shards.map (fun t => t.rows.getD i [])).flatten) := by
    unfold cat2
    rw [getD_zero_eq_headD]
  rw [h]

/-- C3 witness: the theorem at the concrete two-rank group. -/
theorem tensor_parallel_sample_dst_concat_ascending_witness :
    (tensor_parallel_sample egF egShards 0 0 0 0 1).1 =
      (egF ((List.range (egShards.getD 0 defaultT2).rows.length).map
          (fun i => (egShards.map (fun t => t.rows.getD i [])).flatten)) 0 0 1).map
        sampledTensor :=
  tensor_parallel_sample_dst_concat_ascending egF egShards 0 0 1 (by decide)

/-- C4 counterexample: with exactly one participant the call still issues
the gather collective — there is no short-circuit branch in the code —
so "performs no collective communication operation" fails at this
concrete single-rank input. -/
theorem tensor_parallel_sample_w1_collective_cex :
    Ev.gatherEv ∈ (tensor_parallel_sample egF [⟨DType.float32, [[1, 2]]⟩] 0 0 0 0 1).2 := by
  decide

/-- C4 (amended): with exactly one participant the returned token equals
purely local sampling of the rank's own shard, which is the full
vocabulary (destination = self) — but the gather collective is still
invoked: the trace records one collective operation (a trivial
self-gather) before the sampling call. -/
theorem tensor_parallel_sample_w1_local
    (f : List (List ℚ) → ℚ → ℕ → ℚ → Option (List ℤ))
    (t : Tensor2) (p : ℚ) (k : ℕ) (T : ℚ) :
    tensor_parallel_sample f [t] 0 0 p k T =
      ((f t.rows p k T).map sampledTensor, [Ev.gatherEv, Ev.sampleEv]) := by
  rw [tps_dst_eq f [t] p k T (uniformShards_singleton t)]
  rw [cat2_singleton t]

/-- C5: on every non-destination rank the returned value is a placeholder
tensor whose shape is the local shard's leading (batch) dimension with
the vocabulary dimension removed, and — when the sampling primitive
returns one token per batch row, as the spec requires of it — that shape
structurally equals the shape of the destination rank's sampled-token
output. -/
theorem tensor_parallel_sample_placeholder_shape
    (f : List (List ℚ) → ℚ → ℕ → ℚ → Option (List ℤ))
    (shards : List Tensor2) (p : ℚ) (k : ℕ) (T : ℚ) (r : ℕ) (toks : List ℤ)
    (hu : uniformShards shards) (hr0 : r ≠ 0) (hrW : r < shards.length)
    (hne : ∀ row ∈ (shards.getD r defaultT2).rows, row ≠ [])
    (hf : f (cat2 shards).rows p k T = some toks)
    (hlen : toks.length = (cat2 shards).rows.length) :
    ∃ pl dstTok : Tensor1,
      (tensor_parallel_sample f shards 0 r p k T).1 = some pl ∧
      (tensor_parallel_sample f shards 0 0 p k T).1 = some dstTok ∧
      pl.data.length = (shards.getD r defaultT2).rows.length ∧
      dstTok.data.length = pl.data.length := by
  refine ⟨empty_like1 ⟨(shards.getD r defaultT2).dtype,
      (shards.getD r defaultT2).rows.map (fun row => row.headD 0)⟩,
    sampledTensor toks, ?_, ?_, ?_, ?_⟩
  · rw [tps_nondst_eq f shards p k T r hr0]
    unfold placeholderOf index_last0
    rw [if_pos hne]
    rfl
  · rw [tps_dst_eq f shards p k T hu]
    simp [hf]
  · show (((shards.getD r defaultT2).rows.map (fun row => row.headD 0)).map
      (fun _ => (0 : ℚ))).length = _
    rw [List.length_map, List.length_map]
  · have h2 : (sampledTensor toks).data.length = toks.length := by
      show (toks.map (fun (z : ℤ) => (z : ℚ))).length = toks.length
      rw [List.length_map]
    have h3 : (empty_like1 ⟨(shards.getD r defaultT2).dtype,
        (shards.getD r defaultT2).rows.map (fun row => row.headD 0)⟩).data.length =
        (shards.getD r defaultT2).rows.length := by
      show (((shards.getD r defaultT2).rows.map (fun row => row.headD 0)).map
        (fun _ => (0 : ℚ))).length = _
      rw [List.length_map, List.length_map]
    rw [h2, h3, hlen, cat2_rows_length]
    exact (uniform_rows_length shards hu r hrW).symm

/-- C5 witness: the theorem at the concrete two-rank group, rank 1
against the destination. -/
theorem tensor_parallel_sample_placeholder_shape_witness :
    ∃ pl dstTok : Tensor1,
      (tensor_parallel_sample egF egShards 0 1 0 0 1).1 = some pl ∧
      (tensor_parallel_sample egF egShards 0 0 0 0 1).1 = some dstTok ∧
      pl.data.length = (egShards.getD 1 defaultT2).rows.length ∧
      dstTok.data.length = pl.data.length :=
  tensor_parallel_sample_placeholder_shape egF egShards 0 0 1 1 [4]
    (by decide) (by decide) (by decide) (by decide) (by decide) (by decide)

/-- C6: before the gather, the destination (ordinal 0) allocates exactly
one receive buffer per participant, each with the dtype and shape of its
local shard, while every non-destination rank's buffer list is empty;
and every rank, destination or not, issues the same gather collective. -/
theorem tensor_parallel_sample_recv_buffers
    (f : List (List ℚ) → ℚ → ℕ → ℚ → Option (List ℤ))
    (shards : List Tensor2) (p : ℚ) (k : ℕ) (T : ℚ) (r : ℕ) (hr : r ≠ 0) :
    (recvBuffers 0 shards.length (shards.getD 0 defaultT2)).length = shards.length ∧
    (∀ b ∈ recvBuffers 0 shards.length (shards.getD 0 defaultT2),
      b.dtype = (shards.getD 0 defaultT2).dtype ∧
      shapeOf2 b = shapeOf2 (shards.getD 0 defaultT2)) ∧
    recvBuffers r shards.length (shards.getD r defaultT2) = [] ∧
    Ev.gatherEv ∈ (tensor_parallel_sample f shards 0 0 p k T).2 ∧
    Ev.gatherEv ∈ (tensor_parallel_sample f shards 0 r p k T).2 := by
  refine ⟨?_, ?_, if_neg hr, gatherEv_mem f shards 0 0 p k T, gatherEv_mem f shards 0 r p k T⟩
  · simp [recvBuffers]
  · intro b hb
    rw [recvBuffers, if_pos rfl] at hb
    obtain ⟨i, _, hbe⟩ := List.mem_map.mp hb
    exact ⟨by rw [← hbe]; rfl, by rw [← hbe]; exact empty_like2_shape _⟩

/-- C6 witness: the theorem at the concrete two-rank group, rank 1. -/
theorem tensor_parallel_sample_recv_buffers_witness :
    (recvBuffers 0 egShards.length (egShards.getD 0 defaultT2)).length = egShards.length ∧
    (∀ b ∈ recvBuffers 0 egShards.length (egShards.getD 0 defaultT2),
      b.dtype = (egShards.getD 0 defaultT2).dtype ∧
      shapeOf2 b = shapeOf2 (egShards.getD 0 defaultT2)) ∧
    recvBuffers 1 egShards.length (egShards.getD 1 defaultT2) = [] ∧
    Ev.gatherEv ∈ (tensor_parallel_sample egF egShards 0 0 0 0 1).2 ∧
    Ev.gatherEv ∈ (tensor_parallel_sample egF egShards 0 1 0 0 1).2 :=
  tensor_parallel_sample_recv_buffers egF egShards 0 0 1 1 (by decide)

/-- C7: `tensor_parallel_sample` applies no validation or adjustment to
the temperature — the destination's result is exactly the sampling
primitive applied at the given temperature — so with the primitive
undefined on non-positive temperatures (its spec domain is T > 0), a
call with T ≤ 0 produces no token: the operation assumes rather than
defines non-positive temperatures, and validity must be established by
the caller. -/
theorem tensor_parallel_sample_nonpositive_temperature
    (f : List (List ℚ) → ℚ → ℕ → ℚ → Option (List ℤ))
    (shards : List Tensor2) (p : ℚ) (k : ℕ) (T : ℚ)
    (hu : uniformShards shards)
    (hdom : ∀ (rows : List (List ℚ)) (p2 : ℚ) (k2 : ℕ) (t2 : ℚ),
      t2 ≤ 0 → f rows p2 k2 t2 = none)
    (hT : T ≤ 0) :
    (tensor_parallel_sample f shards 0 0 p k T).1 =
      (f (cat2 shards).rows p k T).map sampledTensor ∧
    (tensor_parallel_sample f shards 0 0 p k T).1 = none := by
  have h1 : (tensor_parallel_sample f shards 0 0 p k T).1 =
      (f (cat2 shards).rows p k T).map sampledTensor := by
    rw [tps_dst_eq f shards p k T hu]
  refine ⟨h1, ?_⟩
  rw [h1, hdom _ _ _ _ hT]
  rfl

/-- C7 witness: the theorem with the temperature-guarded primitive at
temperature -1. -/
theorem tensor_parallel_sample_nonpositive_temperature_witness :
    (tensor_parallel_sample egFT egShards 0 0 0 0 (-1)).1 =
      (egFT (cat2 egShards).rows 0 0 (-1)).map sampledTensor ∧
    (tensor_parallel_sample egFT egShards 0 0 0 0 (-1)).1 = none :=
  tensor_parallel_sample_nonpositive_temperature egFT egShards 0 0 (-1)
    (by decide)
    (by
      intro rows p2 k2 t2 ht
      simp [egFT, ht])
    (by decide)

/-- C8: the non-destination placeholder keeps the element dtype of the
local logits shard, while the destination's sampled-token result is an
int64 tensor; when the shards are floating point, the two dtypes differ
even though the data lengths agree — cross-rank agreement is in shape
only, not in dtype. -/
theorem tensor_parallel_sample_placeholder_dtype
    (f : List (List ℚ) → ℚ → ℕ → ℚ → Option (List ℤ))
    (shards : List Tensor2) (p : ℚ) (k : ℕ) (T : ℚ) (r : ℕ) (toks : List ℤ)
    (hu : uniformShards shards) (hr0 : r ≠ 0) (hrW : r < shards.length)
    (hne : ∀ row ∈ (shards.getD r defaultT2).rows, row ≠ [])
    (hf : f (cat2 shards).rows p k T = some toks)
    (hlen : toks.length = (cat2 shards).rows.length) :
    ∃ pl dstTok : Tensor1,
      (tensor_parallel_sample f shards 0 r p k T).1 = some pl ∧
      (tensor_parallel_sample f shards 0 0 p k T).1 = some dstTok ∧
      pl.dtype = (shards.getD r defaultT2).dtype ∧
      dstTok.dtype = DType.int64 ∧
      pl.data.length = dstTok.data.length ∧
      ((shards.getD r defaultT2).dtype = DType.float32 → pl.dtype ≠ dstTok.dtype) := by
  refine ⟨empty_like1 ⟨(shards.getD r defaultT2).dtype,
      (shards.getD r defaultT2).rows.map (fun row => row.headD 0)⟩,
    sampledTensor toks, ?_, ?_, rfl, rfl, ?_, ?_⟩
  · rw [tps_nondst_eq f shards p k T r hr0]
    unfold placeholderOf index_last0
    rw [if_pos hne]
    rfl
  · rw [tps_dst_eq f shards p k T hu]
    simp [hf]
  · have h2 : (sampledTensor toks).data.length = toks.length := by
      show (toks.map (fun (z : ℤ) => (z : ℚ))).length = toks.length
      rw [List.length_map]
    have h3 : (empty_like1 ⟨(shards.getD r defaultT2).dtype,
        (shards.getD r defaultT2).rows.map (fun row => row.headD 0)⟩).data.length =
        (shards.getD r defaultT2).rows.length := by
      show (((shards.getD r defaultT2).rows.map (fun row => row.headD 0)).map
        (fun _ => (0 : ℚ))).length = _
      rw [List.length_map, List.length_map]
    rw [h2, h3, hlen, cat2_rows_length]
    exact uniform_rows_length shards hu r hrW
  · intro hfl
    rw [hfl]
    intro hcon
    exact DType.noConfusion hcon

/-- C8 witness: the theorem at the concrete two-rank group, rank 1. -/
theorem tensor_parallel_sample_placeholder_dtype_witness :
    ∃ pl dstTok : Tensor1,
      (tensor_parallel_sample egF egShards 0 1 0 0 1).1 = some pl ∧
      (tensor_parallel_sample egF egShards 0 0 0 0 1).1 = some dstTok ∧
      pl.dtype = (egShards.getD 1 defaultT2).dtype ∧
      dstTok.dtype = DType.int64 ∧
      pl.data.length = dstTok.data.length ∧
      ((egShards.getD 1 defaultT2).dtype = DType.float32 → pl.dtype ≠ dstTok.dtype) :=
  tensor_parallel_sample_placeholder_dtype egF egShards 0 0 1 1 [4]
    (by decide) (by decide) (by decide) (by decide) (by decide) (by decide)

/-- C9: the code branches on the group-ordinal test `rank = 0` while the
gather is directed at the configured destination; the call succeeds on
the sampling rank (ordinal 0) precisely when the destination is the
ordinal-0 member — for any other destination the sampling rank's gather
(issued with a full, now unexpected, buffer list while the shards go
elsewhere) fails and it holds no gathered shards, so no token is ever
produced. -/
theorem tensor_parallel_sample_dst_rank0_invariant
    (f : List (List ℚ) → ℚ → ℕ → ℚ → Option (List ℤ))
    (shards : List Tensor2) (dst : ℕ) (p : ℚ) (k : ℕ) (T : ℚ) (toks : List ℤ)
    (hu : uniformShards shards) (hW : 0 < shards.length)
    (hf : f (cat2 shards).rows p k T = some toks) :
    ((tensor_parallel_sample f shards dst 0 p k T).1 ≠ none ↔ dst = 0) := by
  constructor
  · intro hne
    by_contra hdst
    apply hne
    have hbuf : recvBuffers 0 shards.length (shards.getD 0 defaultT2) ≠ [] := by
      have hlen2 : (recvBuffers 0 shards.length (shards.getD 0 defaultT2)).length =
          shards.length := by
        simp [recvBuffers]
      intro hcon
      rw [hcon] at hlen2
      simp at hlen2
      omega
    have hgc : gatherColl shards dst 0
        (recvBuffers 0 shards.length (shards.getD 0 defaultT2)) = none := by
      unfold gatherColl
      rw [if_neg (fun h => hdst h.symm), if_neg hbuf]
    rw [tps_unfold, hgc]
  · intro h0
    subst h0
    rw [tps_dst_eq f shards p k T hu]
    simp [hf]

/-- C9 witness: the theorem at the concrete two-rank group with the
destination misconfigured as ordinal 1. -/
theorem tensor_parallel_sample_dst_rank0_invariant_witness :
    ((tensor_parallel_sample egF egShards 1 0 0 0 1).1 ≠ none ↔ 1 = 0) :=
  tensor_parallel_sample_dst_rank0_invariant egF egShards 1 0 0 1 [4]
    (by decide) (by decide) (by decide)

/-- C10 counterexample: with legacy curriculum learning enabled and
`curriculum_seqlen = 1`, a 4-column text tensor is truncated to 1 column,
so the outputs are not columns `0..n-2` / `1..n-1` of the text tensor and
do not have `n - 1` columns. -/
theorem get_batch_pipe_curriculum_cex :
    get_batch_pipe ⟨true, 1⟩ (TText.two [[5, 6, 7, 8]]) ≠
      some ([[5, 6, 7]], [[6, 7, 8]]) := by
  decide

/-- C10 (amended): for every input batch whose text tensor has `n`
columns after squeezing dimension 1 when 3-dimensional, provided the
legacy-curriculum truncation does not apply (curriculum learning disabled,
or `curriculum_seqlen ≥ n - 1`), `get_batch_pipe` returns tokens equal to
columns `0..n-2` and labels equal to columns `1..n-1` of the broadcast
text tensor, each with exactly `n - 1` columns, so the labels are the
tokens shifted left by one position. -/
theorem get_batch_pipe_shift
    (args : Args) (text : TText) (rows : List (List ℤ)) (n : ℕ)
    (hsq : squeezeText text = TText.two rows)
    (hrow : ∀ row ∈ rows, row.length = n)
    (hcur : args.curriculum_learning_legacy = false ∨ n - 1 ≤ args.curriculum_seqlen) :
    get_batch_pipe args text =
      some (rows.map (fun row => row.take (n - 1)), rows.map (fun row => row.drop 1)) ∧
    (∀ tr ∈ rows.map (fun row => row.take (n - 1)), tr.length = n - 1) ∧
    (∀ lr ∈ rows.map (fun row => row.drop 1), lr.length = n - 1) := by
  have hhead : ((rows.map (fun r => r.dropLast)).headD []).length ≤ n - 1 := by
    cases rows with
    | nil => simp
    | cons r0 rest =>
        simp only [List.map_cons, List.headD_cons, List.length_dropLast]
        rw [hrow r0 (List.mem_cons_self r0 rest)]
  have hc : ¬(args.curriculum_learning_legacy = true ∧
      args.curriculum_seqlen < ((rows.map (fun r => r.dropLast)).headD []).length) := by
    rintro ⟨hleg, hlt⟩
    cases hcur with
    | inl h =>
        rw [h] at hleg
        exact absurd hleg (by simp)
    | inr h => omega
  refine ⟨?_, ?_, ?_⟩
  · rw [gbp_two_eq args text rows hsq, if_neg hc]
    have htk : rows.map (fun r => r.dropLast) = rows.map (fun row => row.take (n - 1)) := by
      apply List.map_congr_left
      intro row hrm
      rw [List.dropLast_eq_take, hrow row hrm]
    rw [htk]
  · intro tr htr
    obtain ⟨row, hrm, hre⟩ := List.mem_map.mp htr
    rw [← hre, List.length_take, hrow row hrm]
    omega
  · intro lr hlr
    obtain ⟨row, hrm, hre⟩ := List.mem_map.mp hlr
    rw [← hre, List.length_drop, hrow row hrm]

/-- C10 witness: the amended theorem on a one-row, three-column 2-D text
tensor with curriculum learning disabled. -/
theorem get_batch_pipe_shift_witness :
    get_batch_pipe ⟨false, 0⟩ (TText.two [[1, 2, 3]]) =
      some ([[1, 2, 3]].map (fun row => row.take (3 - 1)),
            [[1, 2, 3]].map (fun row => row.drop 1)) ∧
    (∀ tr ∈ [[1, 2, 3]].map (fun (row : List ℤ) => row.take (3 - 1)), tr.length = 3 - 1) ∧
    (∀ lr ∈ [[1, 2, 3]].map (fun (row : List ℤ) => row.drop 1), lr.length = 3 - 1) :=
  get_batch_pipe_shift ⟨false, 0⟩ (TText.two [[1, 2, 3]]) [[1, 2, 3]] 3
    rfl (by decide) (Or.inl rfl)
